import Mathlib

/-!
Verification of the AquaRegWatch change-detection and notification-routing
pipeline against its specification.

The development shallowly embeds the Python sources:

* `monitor.py` (root): `normalize_content`, `fetch_page_with_retry`,
  `track_failure`, `clear_failure`;
* `src/change_detector.py`: `ChangeDetector._clean_text`,
  `_extract_keywords`, `_calculate_change_percent`, `_extract_changes`,
  `_generate_summary`, `detect_changes`;
* `src/scraper.py`: `NorwegianAquacultureScraper.fetch_page`;
* `src/monitor.py`: `AquaRegMonitor._filter_changes_for_client` and the
  priority assignment in `check_source`;
* `src/ai_summarizer.py`: the priority field of `summarize_change`.

Strings are modelled as Lean `String` / `List Char`; the concrete regular
expressions used by the code are embedded as hand-written matchers with
Python `re` semantics (leftmost match, ordered alternation, greedy/lazy
repetition with backtracking) for exactly the patterns occurring in the
source.  Python floats are modelled as exact rationals, and Python
`round(x, 2)` as round-half-to-even on rationals.  `difflib` is an external
standard-library collaborator; its `SequenceMatcher.ratio` is modelled from
the specification (a longest-common-subsequence-style line similarity in
[0,1], `2*M/T`).  Network, HTML parsing, e-mail and database effects are
out of scope; the functions that depend on them are parameterised by the
observable outcomes.
-/

namespace Aqua

/-! ### Python character and string primitives -/

/-- Python regex `\s` / `str.isspace` on the ASCII range used by the sources. -/
def pyIsSpace (c : Char) : Bool :=
  c = ' ' || c = '\t' || c = '\n' || c = '\x0d' || c = '\x0b' || c = '\x0c'

/-- Python `str.lower` on the alphabet appearing in the repository
(ASCII plus the Norwegian letters used in the keyword lexicon). -/
def pyLower (c : Char) : Char :=
  if c.isUpper then c.toLower
  else if c = 'Æ' then 'æ'
  else if c = 'Ø' then 'ø'
  else if c = 'Å' then 'å'
  else c

/-- Case-insensitive character comparison, as under `re.IGNORECASE`. -/
def ciEq (a b : Char) : Bool := pyLower a = pyLower b

/-- Python `str.lower` on whole strings. -/
def lowerString (s : String) : String := String.mk (s.data.map pyLower)

/-- Substring test on character lists (Python `needle in hay`). -/
def subList (pat : List Char) : List Char → Bool
  | [] => pat.isEmpty
  | c :: cs => pat.isPrefixOf (c :: cs) || subList pat cs

/-- Python `needle in hay` on strings. -/
def pyContains (hay needle : String) : Bool := subList needle.data hay.data

/-! ### A substitution engine with Python `re.sub` semantics

A matcher `m : List Char → Option Nat` reports the number of characters the
pattern consumes when anchored at the head of the list (`none` if it does
not match there).  `pySub m repl` scans left to right, replaces each
leftmost non-overlapping match by `repl` and resumes after it — exactly
`re.sub` for patterns that never match the empty string (all matchers below
consume at least one character; a zero-length report is treated as no
match).  Fuel is the list length: every step consumes at least one input
character, so the fuel never runs out. -/

def pySubGo (m : List Char → Option Nat) (repl : List Char) :
    Nat → List Char → List Char
  | _, [] => []
  | 0, l => l
  | fuel + 1, c :: cs =>
    match m (c :: cs) with
    | some (n + 1) => repl ++ pySubGo m repl fuel (cs.drop n)
    | _ => c :: pySubGo m repl fuel cs

/-- `re.sub(pattern, repl, text)` for a matcher `m` embedding `pattern`. -/
def pySub (m : List Char → Option Nat) (repl : List Char) (l : List Char) :
    List Char := pySubGo m repl l.length l

/-- Run collapsing for `re.sub(r'\s+', ' ', text)`: every maximal run of
whitespace becomes a single space.  The boolean records whether the scan is
inside a whitespace run. -/
def collapseGo : Bool → List Char → List Char
  | _, [] => []
  | inWs, c :: cs =>
    if pyIsSpace c then
      if inWs then collapseGo true cs else ' ' :: collapseGo true cs
    else c :: collapseGo false cs

/-- `re.sub(r'\s+', ' ', text)`. -/
def collapseWs (l : List Char) : List Char := collapseGo false l

/-- Python `str.strip()`: drop leading and trailing whitespace. -/
def pyStrip (l : List Char) : List Char :=
  (((l.dropWhile pyIsSpace).reverse).dropWhile pyIsSpace).reverse

/-! ### Matchers for the concrete patterns of the sources -/

/-- Literal string, case-insensitively (`re.IGNORECASE`). -/
def matchCI : List Char → List Char → Option Nat
  | [], _ => some 0
  | _ :: _, [] => none
  | p :: ps, c :: cs =>
    if ciEq p c then (matchCI ps cs).map (· + 1) else none

/-- `\d{1,2}` followed by continuation `k`, greedy with backtracking:
two digits are preferred, one digit is retried if the continuation fails. -/
def d12Then (k : List Char → Option Nat) : List Char → Option Nat
  | [] => none
  | [a] => if a.isDigit then (k []).map (· + 1) else none
  | a :: b :: rest =>
    if a.isDigit then
      match (if b.isDigit then (k rest).map (· + 2) else none) with
      | some r => some r
      | none => (k (b :: rest)).map (· + 1)
    else none

/-- Literal `.` followed by continuation. -/
def dotThen (k : List Char → Option Nat) : List Char → Option Nat
  | '.' :: rest => (k rest).map (· + 1)
  | _ => none

/-- `\d{4}` (exactly four digits), consuming 4. -/
def matchYear4 : List Char → Option Nat
  | a :: b :: c :: d :: _ =>
    if a.isDigit && b.isDigit && c.isDigit && d.isDigit then some 4 else none
  | _ => none

/-- `r'\d{1,2}\.\d{1,2}\.\d{4}'` — Norwegian numeric date DD.MM.YYYY. -/
def matchNumDate : List Char → Option Nat :=
  d12Then (dotThen (d12Then (dotThen matchYear4)))

/-- `r'\d{4}-\d{2}-\d{2}'` — ISO date. -/
def matchIsoDate : List Char → Option Nat
  | a :: b :: c :: d :: '-' :: e :: f :: '-' :: g :: h :: _ =>
    if a.isDigit && b.isDigit && c.isDigit && d.isDigit &&
       e.isDigit && f.isDigit && g.isDigit && h.isDigit then some 10 else none
  | _ => none

/-- `\d{2}(:\d{2})?` — minutes with optional greedy seconds. -/
def matchMMOptSS : List Char → Option Nat
  | a :: b :: rest =>
    if a.isDigit && b.isDigit then
      match rest with
      | ':' :: c :: d :: _ => if c.isDigit && d.isDigit then some 5 else some 2
      | _ => some 2
    else none
  | _ => none

/-- `r'\d{1,2}:\d{2}(:\d{2})?'` — clock time. -/
def matchTime : List Char → Option Nat :=
  d12Then fun l =>
    match l with
    | ':' :: rest => (matchMMOptSS rest).map (· + 1)
    | _ => none

/-- Count of leading whitespace characters (`\s*` before a disjoint token). -/
def countWs : List Char → Nat
  | [] => 0
  | c :: cs => if pyIsSpace c then countWs cs + 1 else 0

/-- `[:.]\d{2}`. -/
def matchColonDotMM : List Char → Option Nat
  | c :: d1 :: d2 :: _ =>
    if (c = ':' || c = '.') && d1.isDigit && d2.isDigit then some 3 else none
  | _ => none

/-- `r'kl\.\s*\d{1,2}[:.]\d{2}'` with `re.IGNORECASE` — "kl. HH:MM".
`\s*` is followed by a digit, so the greedy run is forced to be maximal. -/
def matchKlTime (l : List Char) : Option Nat :=
  match l with
  | k :: le :: '.' :: rest =>
    if ciEq k 'k' && ciEq le 'l' then
      let w := countWs rest
      ((d12Then matchColonDotMM) (rest.drop w)).map (· + 3 + w)
    else none
  | _ => none

/-- `r'Sist\s+oppdatert'` with `re.IGNORECASE`.  `\s+` is followed by a
non-whitespace letter, so the greedy run is forced to be maximal. -/
def matchSistOppdatert (l : List Char) : Option Nat :=
  match matchCI "sist".data l with
  | some 4 =>
    let rest := l.drop 4
    let w := countWs rest
    if w = 0 then none
    else (matchCI "oppdatert".data (rest.drop w)).map (· + 4 + w)
  | _ => none

/-- `r'Publisert'` with `re.IGNORECASE`. -/
def matchPublisert (l : List Char) : Option Nat := matchCI "publisert".data l

/-- Norwegian month names of the spelled-date pattern, in pattern order. -/
def monthNames : List String :=
  ["januar", "februar", "mars", "april", "mai", "juni", "juli", "august",
   "september", "oktober", "november", "desember"]

/-- Ordered alternation of the month names (case-insensitive). -/
def matchMonth (l : List Char) : Option Nat :=
  (monthNames.map fun m => matchCI m.data l).foldl (fun acc r => acc <|> r) none

/-- `r'\d{1,2}\. (januar|…|desember) \d{4}'` with `re.IGNORECASE`. -/
def matchSpelledDate : List Char → Option Nat :=
  d12Then (dotThen fun l =>
    match l with
    | ' ' :: rest =>
      match matchMonth rest with
      | some n =>
        match rest.drop n with
        | ' ' :: rest2 => (matchYear4 rest2).map (· + n + 2)
        | _ => none
      | none => none
    | _ => none)

/-- `(siden|ago)` case-insensitively — ordered alternation. -/
def matchSidenAgo (l : List Char) : Option Nat :=
  matchCI "siden".data l <|> matchCI "ago".data l

/-- `.*?(siden|ago)`: lazy scan — at each position the terminal alternation
is tried first; `.` does not cross a newline. -/
def lazyUntilSidenAgo : List Char → Option Nat
  | [] => none
  | c :: cs =>
    match matchSidenAgo (c :: cs) with
    | some n => some n
    | none => if c = '\n' then none else (lazyUntilSidenAgo cs).map (· + 1)

/-- `r'(oppdatert|publisert|endret).*?(siden|ago)'` with `re.IGNORECASE`. -/
def matchUpdatedAgo (l : List Char) : Option Nat :=
  match matchCI "oppdatert".data l <|> matchCI "publisert".data l <|>
        matchCI "endret".data l with
  | some n => (lazyUntilSidenAgo (l.drop n)).map (· + n)
  | none => none

/-- Count of leading digits (`\d+` before a disjoint token). -/
def countDigits : List Char → Nat
  | [] => 0
  | c :: cs => if c.isDigit then countDigits cs + 1 else 0

/-- Counter nouns of the counter pattern, in pattern order. -/
def counterWords : List String := ["resultater", "treff", "saker", "dokumenter"]

/-- `r'\d+ (resultater|treff|saker|dokumenter)'` with `re.IGNORECASE`.
`\d+` is followed by a literal space, so the greedy run is maximal. -/
def matchCounter (l : List Char) : Option Nat :=
  let n := countDigits l
  if n = 0 then none
  else
    match l.drop n with
    | ' ' :: rest =>
      ((counterWords.map fun w => matchCI w.data rest).foldl
        (fun acc r => acc <|> r) none).map (· + n + 1)
    | _ => none

/-! ### `monitor.py` — `normalize_content` -/

/-- `monitor.py::normalize_content`: replace volatile substrings by fixed
placeholders, collapse whitespace, strip. -/
def normalize_content (s : String) : String :=
  let t := s.data
  let t := pySub matchNumDate "[DATE]".data t
  let t := pySub matchSpelledDate "[DATE]".data t
  let t := pySub matchTime "[TIME]".data t
  let t := pySub matchUpdatedAgo "[UPDATED]".data t
  let t := pySub matchCounter "[COUNT]".data t
  String.mk (pyStrip (collapseWs t))

/-! ### `change_detector.py` — `ChangeDetector._clean_text`

The compiled `IGNORE_PATTERNS` are applied in list order with empty
replacement; `r'^\s*$'` is compiled without `re.MULTILINE`, so it matches
exactly the all-whitespace strings (including the empty string) and removes
them wholly. -/

/-- `ChangeDetector._clean_text`. -/
def clean_text (s : String) : String :=
  let t := s.data
  let t := pySub matchNumDate [] t
  let t := pySub matchIsoDate [] t
  let t := pySub matchKlTime [] t
  let t := pySub matchSistOppdatert [] t
  let t := pySub matchPublisert [] t
  let t := if t.all pyIsSpace then [] else t
  String.mk (pyStrip (collapseWs t))

/-! ### Python `str.splitlines` (over the line boundaries `\n`, `\r`, `\r\n`
occurring in this pipeline) -/

def slGo (skipNl : Bool) (cur : List Char) : List Char → List (List Char)
  | [] => if cur.isEmpty then [] else [cur.reverse]
  | c :: cs =>
    if skipNl && c = '\n' then slGo false cur cs
    else if c = '\n' then cur.reverse :: slGo false [] cs
    else if c = '\x0d' then cur.reverse :: slGo true [] cs
    else slGo false (c :: cur) cs

/-- Python `str.splitlines()` (no kept ends, no trailing empty line).
`\r\n` is one boundary: after a `\r` the flag makes an immediately
following `\n` part of the same boundary. -/
def pySplitlines (s : String) : List String :=
  (slGo false [] s.data).map String.mk

/-- Python `str.strip()` on strings. -/
def pyStripStr (s : String) : String := String.mk (pyStrip s.data)

/-! ### `change_detector.py` — similarity and change percentage

`_calculate_change_percent` calls `difflib.SequenceMatcher(None, old,
new).ratio()`, an external standard-library algorithm.  Modelled from the
spec: §4.3 step 3 describes it as "a longest-common-subsequence-style line
similarity in [0,1]" equal to `2*M/T` where `M` is the matched line count
and `T` the total line count; we take `M` to be the length of a longest
common subsequence.  Python floats are modelled as exact rationals and
`round(x, 2)` as round-half-to-even at two decimals. -/

/-- Length of a longest common subsequence of two line lists. -/
def lcs : List String → List String → Nat
  | [], _ => 0
  | _ :: _, [] => 0
  | a :: as, b :: bs =>
    if a = b then lcs as bs + 1
    else max (lcs (a :: as) bs) (lcs as (b :: bs))
termination_by a b => a.length + b.length
decreasing_by all_goals simp_arith

/-- `SequenceMatcher.ratio()`: `2*M/T`, and 1.0 for two empty sequences. -/
def similarity_ratio (a b : List String) : ℚ :=
  if a.length + b.length = 0 then 1
  else 2 * (lcs a b : ℚ) / ((a.length : ℚ) + (b.length : ℚ))

/-- Round-half-to-even to an integer (the rounding of Python `round`). -/
def roundHalfEven (q : ℚ) : ℤ :=
  if q - Rat.floor q < 1 / 2 then Rat.floor q
  else if (1 : ℚ) / 2 < q - Rat.floor q then Rat.floor q + 1
  else if Even (Rat.floor q) then Rat.floor q else Rat.floor q + 1

/-- Python `round(x, 2)` on the rational model of floats. -/
def pythonRound2 (q : ℚ) : ℚ := (roundHalfEven (q * 100) : ℚ) / 100

/-- `ChangeDetector._calculate_change_percent`. -/
def calculate_change_percent (old_lines new_lines : List String) : ℚ :=
  if old_lines.isEmpty && new_lines.isEmpty then 0
  else if old_lines.isEmpty then 100
  else pythonRound2 ((1 - similarity_ratio old_lines new_lines) * 100)

/-! ### `change_detector.py` — keywords, extraction, summary -/

/-- `ChangeDetector.SIGNIFICANT_KEYWORDS`, in dictionary (insertion) order. -/
def SIGNIFICANT_KEYWORDS : List (String × String) :=
  [("forskrift", "regulation"), ("lov", "law"), ("forordning", "ordinance"),
   ("vedtak", "decision"), ("endring", "change/amendment"),
   ("ikrafttredelse", "entry into force"),
   ("tillatelse", "permit"), ("konsesjon", "license"),
   ("søknad", "application"), ("godkjenning", "approval"),
   ("avslag", "rejection"),
   ("mtb", "maximum biomass"), ("biomasse", "biomass"),
   ("produksjon", "production"), ("kapasitet", "capacity"),
   ("utsett", "stocking"),
   ("lakselus", "sea lice"), ("sykdom", "disease"), ("smitte", "infection"),
   ("behandling", "treatment"), ("vaksine", "vaccine"),
   ("ila", "ISA (infectious salmon anemia)"), ("pd", "PD (pancreas disease)"),
   ("miljø", "environment"), ("utslipp", "emissions"), ("rømming", "escape"),
   ("bunnpåvirkning", "seabed impact"),
   ("trafikklys", "traffic light system"),
   ("gebyr", "fee"), ("bot", "fine"), ("overtredelse", "violation"),
   ("sanksjoner", "sanctions"), ("stenging", "closure"),
   ("forbud", "prohibition"),
   ("frist", "deadline"), ("høring", "consultation"),
   ("høringsfrist", "consultation deadline"), ("innen", "by/within"),
   ("produksjonsområde", "production area"), ("rød sone", "red zone"),
   ("gul sone", "yellow zone"), ("grønn sone", "green zone")]

/-- `ChangeDetector._extract_keywords`.  The code appends one entry per
matching lexicon key (so `found` is duplicate-free) and returns
`list(set(found))`, an arbitrary permutation; we keep lexicon order. -/
def extract_keywords (text : String) : List String :=
  let text_lower := lowerString text
  (SIGNIFICANT_KEYWORDS.filter fun kv => pyContains text_lower kv.1).map
    fun kv => kv.1 ++ " (" ++ kv.2 ++ ")"

/-- First-occurrence deduplication, modelling iteration over a Python set
built from a list (the set order itself is unspecified). -/
def distinctList (l : List String) : List String :=
  l.foldl (fun acc x => if x ∈ acc then acc else acc ++ [x]) []

/-- `ChangeDetector._extract_changes`: added and removed lines via set
difference of the raw line sets, stripped, empties dropped. -/
def extract_changes (old_text new_text : String) : List String × List String :=
  let old_lines := pySplitlines old_text
  let new_lines := pySplitlines new_text
  let added := (((distinctList new_lines).filter fun l =>
      decide (l ∉ old_lines)).map pyStripStr).filter (· ≠ "")
  let removed := (((distinctList old_lines).filter fun l =>
      decide (l ∉ new_lines)).map pyStripStr).filter (· ≠ "")
  (added, removed)

/-- `ChangeDetector._generate_summary`.  `fmt` renders the float
`change_percent` inside the f-strings (Python float formatting is outside
the model). -/
def generate_summary (fmt : ℚ → String) (added removed keywords : List String)
    (change_percent : ℚ) : String :=
  let head :=
    if change_percent ≥ 50 then
      "Major changes detected (>50% of content modified)"
    else if change_percent ≥ 20 then
      "Significant changes detected (" ++ fmt change_percent ++ "% modified)"
    else if change_percent ≥ 5 then
      "Moderate changes detected (" ++ fmt change_percent ++ "% modified)"
    else
      "Minor changes detected (" ++ fmt change_percent ++ "% modified)"
  let parts := [head] ++
    (if keywords.isEmpty then [] else
      ["Keywords found: " ++ String.intercalate ", " (keywords.take 5)]) ++
    (if added.isEmpty then [] else
      ["Added " ++ toString added.length ++ " new lines/items"]) ++
    (if removed.isEmpty then [] else
      ["Removed " ++ toString removed.length ++ " lines/items"])
  String.intercalate ". " parts ++ "."

/-! ### `change_detector.py` — `detect_changes` -/

/-- One entry of `_identify_modified_sections`. -/
structure ModSection where
  tag : String
  sectionName : String
  old_range : Nat × Nat
  new_range : Nat × Nat

/-- External presentation collaborators of `detect_changes`:
`_generate_diff` (difflib unified/HTML diff rendering, returning
`(diff_text, diff_html)`), `_identify_modified_sections` (difflib opcodes)
and Python float formatting.  No claim constrains these outputs. -/
structure PresentationExt where
  genDiff : String → String → String × String
  modSections : String → String → List ModSection
  fmtFloat : ℚ → String

/-- The `ChangeAnalysis` dataclass. -/
structure ChangeAnalysis where
  has_changes : Bool
  change_percent : ℚ
  added_lines : List String
  removed_lines : List String
  modified_sections : List ModSection
  diff_html : String
  diff_text : String
  significant_keywords_found : List String
  is_significant : Bool
  change_summary : String

/-- The hard-trigger terms of the significance test in `detect_changes`. -/
def hardTriggerTerms : List String := ["forskrift", "frist", "bot", "stenging"]

/-- `ChangeDetector.detect_changes` (the `source_name` argument is only
logged by the code and does not influence the result). -/
def detect_changes (ext : PresentationExt) (min_change_threshold : ℚ)
    (old_content new_content : String) : ChangeAnalysis :=
  if old_content = new_content then
    ⟨false, 0, [], [], [], "", "", [], false, "No changes detected."⟩
  else
    let old_cleaned := clean_text old_content
    let new_cleaned := clean_text new_content
    if old_cleaned = new_cleaned then
      ⟨false, 0, [], [], [], "", "", [], false,
        "Only formatting/timestamp changes (no substantive updates)."⟩
    else
      let old_lines := pySplitlines old_cleaned
      let new_lines := pySplitlines new_cleaned
      let change_percent := calculate_change_percent old_lines new_lines
      let ar := extract_changes old_content new_content
      let added := ar.1
      let removed := ar.2
      let d := ext.genDiff old_content new_content
      let changed_text := String.intercalate "\n" added
      let keywords_found := extract_keywords changed_text
      let modified_sections := ext.modSections old_content new_content
      let is_significant :=
        decide (min_change_threshold ≤ change_percent) ||
        !keywords_found.isEmpty ||
        hardTriggerTerms.any fun kw =>
          pyContains (lowerString changed_text) kw
      let summary :=
        generate_summary ext.fmtFloat added removed keywords_found
          change_percent
      ⟨true, change_percent, added, removed, modified_sections, d.2, d.1,
        keywords_found, is_significant, summary⟩

/-- A trivial instantiation of the presentation collaborators, used for
concrete evaluations. -/
def trivExt : PresentationExt :=
  ⟨fun _ _ => ("", ""), fun _ _ => [], fun _ => ""⟩

/-! ### `monitor.py` — `fetch_page_with_retry`

The network and the HTML-to-text extraction are external; an attempt
oracle `net : Nat → MonitorAttempt` gives the outcome of each numbered
request, and `H` models `sha256(...).hexdigest()[:16]`.  The trace records
the number of request attempts made, the sleeps performed between them and
the returned pair. -/

/-- Outcome of one `requests.get` attempt in `fetch_page_with_retry`. -/
inductive MonitorAttempt where
  | ok (text : String)
  | httpError (status : Nat)
  | timeout
  | connectionError (msg : String)
  | otherError (msg : String)

def MAX_RETRIES : Nat := 3

def RETRY_DELAY : Nat := 2

/-- `monitor.py` success path (lines 141-158): strip the extracted lines,
drop empties, join with newlines; the hash is taken of the *normalized*
content. -/
def rebuildContent (text : String) : String :=
  String.intercalate "\n"
    (((pySplitlines text).map pyStripStr).filter (· ≠ ""))

/-- The `(content, content_hash)` pair returned on success. -/
def monitorFetchSuccess (H : String → String) (text : String) :
    String × String :=
  let content := rebuildContent text
  (content, H (normalize_content content))

/-- Observable behaviour of a fetch: attempts made, sleep durations between
attempts, and the returned `(content, hash)` (or `none` for the explicit
failure outcome). -/
structure FetchTrace where
  attempts : Nat
  sleeps : List Nat
  result : Option (String × String)

/-- The retry loop of `fetch_page_with_retry`: attempts are numbered from
1; a 404 returns immediately; any other error sleeps `RETRY_DELAY *
attempt` when further attempts remain.  `fuel` is the number of attempts
still allowed (`attempt + fuel = MAX_RETRIES + 1` throughout). -/
def fetchRetryGo (H : String → String) (net : Nat → MonitorAttempt) :
    Nat → Nat → FetchTrace
  | _, 0 => ⟨0, [], none⟩
  | attempt, fuel + 1 =>
    match net attempt with
    | .ok text => ⟨1, [], some (monitorFetchSuccess H text)⟩
    | .httpError 404 => ⟨1, [], none⟩
    | _ =>
      let rest := fetchRetryGo H net (attempt + 1) fuel
      ⟨rest.attempts + 1,
       (if fuel = 0 then [] else [RETRY_DELAY * attempt]) ++ rest.sleeps,
       rest.result⟩

/-- `monitor.py::fetch_page_with_retry`. -/
def fetch_page_with_retry (H : String → String)
    (net : Nat → MonitorAttempt) : FetchTrace :=
  fetchRetryGo H net 1 MAX_RETRIES

/-! ### `scraper.py` — `NorwegianAquacultureScraper.fetch_page` -/

/-- Run of at least three newlines (`r'\n{3,}'`, greedy). -/
def countRunOf (c : Char) : List Char → Nat
  | [] => 0
  | d :: ds => if d = c then countRunOf c ds + 1 else 0

def matchNl3 (l : List Char) : Option Nat :=
  let n := countRunOf '\n' l
  if 3 ≤ n then some n else none

/-- Run of at least two spaces (`r' {2,}'`, greedy). -/
def matchSp2 (l : List Char) : Option Nat :=
  let n := countRunOf ' ' l
  if 2 ≤ n then some n else none

/-- The whitespace cleanup at the end of `_extract_content`
(lines 174-175): `\n{3,}` to two newlines, then `' '{2,}` to one space. -/
def scraperExtractCleanup (text : String) : String :=
  String.mk (pySub matchSp2 [' '] (pySub matchNl3 ['\n', '\n'] text.data))

/-- `scraper.py` line 245: the content hash is `sha256` of `text_content`
itself — the extracted text, with no normalization pass. -/
def scraper_content_hash (H : String → String) (text_content : String) :
    String := H text_content

/-- Outcome of one `self.session.get` attempt in `fetch_page`. -/
inductive ScraperAttempt where
  | resp (status : Nat) (body : String)
  | timeout
  | connectionError (msg : String)
  | exc (msg : String)

/-- The fields of `ScrapedContent` that the claims observe. -/
structure ScrapedResult where
  text : String
  content_hash : String
  error : Option String

/-- Observable behaviour of one `fetch_page` call. -/
structure ScraperTrace where
  attempts : Nat
  sleeps : List Nat
  result : ScrapedResult

/-- After the loop: an error with no HTML yields the explicit failure
result; otherwise the body is extracted (external soup step `extractPre`
followed by the regex cleanup) and hashed un-normalized. -/
def scraperFinish (extractPre H : String → String) (err : Option String)
    (html : String) : ScrapedResult :=
  if err.isSome && html = "" then ⟨"", "", err⟩
  else
    let text := scraperExtractCleanup (extractPre html)
    ⟨text, scraper_content_hash H text, none⟩

/-- The retry loop of `fetch_page`: attempts numbered from 0; 200 and 404
break; 5xx, timeouts and connection errors sleep a *constant*
`retry_delay` when not on the last attempt; other statuses retry without
sleeping; unexpected exceptions break.  `fuel` is the number of attempts
remaining. -/
def scraperGo (extractPre H : String → String)
    (net : Nat → ScraperAttempt) (retry_delay : Nat) :
    Option String → Nat → Nat → ScraperTrace
  | err, _, 0 => ⟨0, [], scraperFinish extractPre H err ""⟩
  | err, attempt, fuel + 1 =>
    match net attempt with
    | .resp 200 body => ⟨1, [], scraperFinish extractPre H err body⟩
    | .resp 404 _ =>
      ⟨1, [], scraperFinish extractPre H (some "Page not found (404)") ""⟩
    | .resp s _ =>
      if 500 ≤ s then
        let rest := scraperGo extractPre H net retry_delay
          (some ("Server error (" ++ toString s ++ ")")) (attempt + 1) fuel
        ⟨rest.attempts + 1,
         (if fuel = 0 then [] else [retry_delay]) ++ rest.sleeps, rest.result⟩
      else
        let rest := scraperGo extractPre H net retry_delay
          (some ("HTTP " ++ toString s)) (attempt + 1) fuel
        ⟨rest.attempts + 1, rest.sleeps, rest.result⟩
    | .timeout =>
      let rest := scraperGo extractPre H net retry_delay
        (some "Timeout") (attempt + 1) fuel
      ⟨rest.attempts + 1,
       (if fuel = 0 then [] else [retry_delay]) ++ rest.sleeps, rest.result⟩
    | .connectionError m =>
      let rest := scraperGo extractPre H net retry_delay
        (some ("Connection error: " ++ m)) (attempt + 1) fuel
      ⟨rest.attempts + 1,
       (if fuel = 0 then [] else [retry_delay]) ++ rest.sleeps, rest.result⟩
    | .exc m =>
      ⟨1, [], scraperFinish extractPre H (some ("Unexpected error: " ++ m)) ""⟩

/-- `scraper.py::fetch_page` (constructor defaults: `max_retries = 3`,
`retry_delay = 5`). -/
def fetch_page (extractPre H : String → String)
    (net : Nat → ScraperAttempt) (max_retries : Nat := 3)
    (retry_delay : Nat := 5) : ScraperTrace :=
  scraperGo extractPre H net retry_delay none 0 max_retries

/-! ### `monitor.py` — failure tracking

The `failures.json` dictionary is modelled as a finite map
`String → Option FailRec`; `load`/`save` round-trips are identity at this
level.  `now` stands for `datetime.now().isoformat()`. -/

/-- One entry of the failures dictionary. -/
structure FailRec where
  count : Nat
  first_failure : Option String
  last_error : Option String
deriving DecidableEq

/-- The failures dictionary. -/
def FailState : Type := String → Option FailRec

/-- `monitor.py::track_failure`: insert-or-increment, stamp
`first_failure` on the first failure, return the alert condition
`count >= 3`. -/
def track_failure (now err source_id : String) (st : FailState) :
    FailState × Bool :=
  let r0 := (st source_id).getD ⟨0, none, none⟩
  let r1 : FailRec :=
    ⟨r0.count + 1, some (r0.first_failure.getD now), some err⟩
  (fun x => if x = source_id then some r1 else st x, decide (3 ≤ r1.count))

/-- `monitor.py::clear_failure`: delete the entry if present. -/
def clear_failure (source_id : String) (st : FailState) : FailState :=
  fun x => if x = source_id then none else st x

/-- One cycle outcome for a source, as `run_monitor` feeds the tracker:
a failed fetch calls `track_failure`, a successful one `clear_failure`. -/
inductive FetchEvent where
  | failure (now err : String)
  | success

/-- Process a sequence of per-cycle outcomes for one source. -/
def runEvents (source_id : String) : FailState → List FetchEvent → FailState
  | st, [] => st
  | st, .failure now err :: evs =>
    runEvents source_id (track_failure now err source_id st).1 evs
  | st, .success :: evs =>
    runEvents source_id (clear_failure source_id st) evs

/-! ### `src/monitor.py` — notification filtering

The `Client` and `Change` records carry exactly the fields
`_filter_changes_for_client` reads; the `Source` table lookup
`query(Source).get(change.source_id).category` is the function `getCat`.
Python `x or default` on a string field is `pyOrStr`; `list.index` raising
`ValueError` is `listIndex` returning `none`, and the raised exception is
the `Except.error` outcome of the whole call. -/

/-- Subscriber fields read by the filter (`client.categories or []` and
`if client.keywords:` make `None` behave like the empty list). -/
structure Client where
  categories : List String
  priority_threshold : Option String
  keywords : List String

/-- Change fields read by the filter. -/
structure ChangeRec where
  source_id : String
  priority : Option String
  diff_text : Option String
deriving DecidableEq

def priority_order : List String := ["critical", "high", "medium", "low"]

/-- Python `x or default` for an optional string (`None` and `""` are
falsy). -/
def pyOrStr (v : Option String) (d : String) : String :=
  match v with
  | none => d
  | some s => if s = "" then d else s

/-- Python `list.index`, `none` when the element is absent (`ValueError`). -/
def listIndex (l : List String) (x : String) : Option Nat :=
  match l with
  | [] => none
  | a :: as => if a = x then some 0 else (listIndex as x).map (· + 1)

/-- The keyword test: some subscriber keyword occurs case-insensitively in
the change diff text (`(change.diff_text or "").lower()`). -/
def keywordHit (client : Client) (ch : ChangeRec) : Bool :=
  client.keywords.any fun kw =>
    pyContains (lowerString (ch.diff_text.getD "")) (lowerString kw)

/-- The loop body of `_filter_changes_for_client`: category check first
(`continue` happens before the per-change `index` call), then the priority
index (which may raise), then the keyword check. -/
def filterGo (getCat : String → String) (client : Client) (minIdx : Nat) :
    List ChangeRec → Except String (List ChangeRec)
  | [] => .ok []
  | ch :: rest =>
    if !client.categories.isEmpty &&
        !(client.categories.contains (getCat ch.source_id)) then
      filterGo getCat client minIdx rest
    else
      match listIndex priority_order (pyOrStr ch.priority "medium") with
      | none => .error "ValueError"
      | some ci =>
        if minIdx < ci then filterGo getCat client minIdx rest
        else if !client.keywords.isEmpty && !keywordHit client ch then
          filterGo getCat client minIdx rest
        else (filterGo getCat client minIdx rest).map (ch :: ·)

/-- `AquaRegMonitor._filter_changes_for_client`. -/
def filter_changes_for_client (getCat : String → String) (client : Client)
    (changes : List ChangeRec) : Except String (List ChangeRec) :=
  match listIndex priority_order (pyOrStr client.priority_threshold "low") with
  | none => .error "ValueError"
  | some minIdx => filterGo getCat client minIdx changes

/-- Modelled from the spec (§4.6): the per-subscriber routing predicate —
keep the change iff the category allow-list admits the source, the
priority is ordinally at or above the threshold (critical > high > medium
> low) and the keyword allow-list is empty or hit. -/
def clientWants (getCat : String → String) (client : Client)
    (ch : ChangeRec) : Bool :=
  match listIndex priority_order (pyOrStr client.priority_threshold "low"),
        listIndex priority_order (pyOrStr ch.priority "medium") with
  | some minIdx, some ci =>
    (client.categories.isEmpty ||
      client.categories.contains (getCat ch.source_id)) &&
    decide (ci ≤ minIdx) &&
    (client.keywords.isEmpty || keywordHit client ch)
  | _, _ => false

/-! ### `src/monitor.py` / `src/ai_summarizer.py` — priority provenance -/

/-- `ai_summarizer.py` line 377: the summary priority is
`result.get("priority", "medium")` — whatever string the parsed model
response carries, unvalidated. -/
def summarize_change_priority (parsed_priority : Option String) : String :=
  parsed_priority.getD "medium"

/-- `src/monitor.py::check_source`: the `Change` row is created with the
source base priority, then overwritten by `summary.priority` whenever the
AI summarization succeeds. -/
def check_source_priority (source_priority : String)
    (ai_priority : Option String) : String :=
  match ai_priority with
  | some p => p
  | none => source_priority

/-! ## Supporting lemmas -/

theorem clean_text_empty : clean_text "" = "" := rfl

theorem slGo_ne_nil (l : List Char) :
    ∀ cur, (cur = [] → l ≠ []) → slGo false cur l ≠ [] := by
  induction l with
  | nil =>
    intro cur h
    have hcur : cur ≠ [] := fun e => (h e) rfl
    simp only [slGo]
    rw [if_neg (by simpa using hcur)]
    simp
  | cons c cs ih =>
    intro cur _
    by_cases hn : c = '\n'
    · simp [slGo, hn]
    · by_cases hc : c = '\x0d'
      · simp [slGo, hn, hc]
      · rw [slGo]
        simp only [Bool.false_and, if_neg hn, if_neg hc, if_false]
        exact ih (c :: cur) (by simp)

theorem string_data_ne_nil {s : String} (h : s ≠ "") : s.data ≠ [] := by
  cases s with
  | mk data => simpa using fun e => h (by simp [e])

theorem pySplitlines_ne_nil {s : String} (h : s ≠ "") :
    pySplitlines s ≠ [] := by
  have := slGo_ne_nil s.data [] (fun _ => string_data_ne_nil h)
  simpa [pySplitlines] using this

/-! ## Claim C1 — noise invariance of `detect_changes` -/

/-- C1: for every pair of input strings, if the raw texts are identical, or
differ but become equal after noise cleaning (`_clean_text`), then
`detect_changes` returns `has_changes = false`, `change_percent = 0.0` and
`is_significant = false`. -/
theorem c1_noise_invariance (ext : PresentationExt) (θ : ℚ)
    (old_content new_content : String)
    (h : old_content = new_content ∨
      clean_text old_content = clean_text new_content) :
    (detect_changes ext θ old_content new_content).has_changes = false ∧
    (detect_changes ext θ old_content new_content).change_percent = 0 ∧
    (detect_changes ext θ old_content new_content).is_significant = false := by
  by_cases he : old_content = new_content
  · simp [detect_changes, he]
  · have hc : clean_text old_content = clean_text new_content :=
      h.resolve_left he
    simp [detect_changes, he, hc]

/-- Witness for C1 at concrete inputs: the raw texts differ only by a
`Publisert`-style noise token, the cleaned texts agree, and the analysis
reports no change. -/
theorem c1_noise_invariance_witness :
    (clean_text "pris 100 Publisert" = clean_text "pris 100" ∧
      ("pris 100 Publisert" : String) ≠ "pris 100") ∧
    (detect_changes trivExt 1 "pris 100 Publisert" "pris 100").has_changes
        = false ∧
    (detect_changes trivExt 1 "pris 100 Publisert" "pris 100").change_percent
        = 0 ∧
    (detect_changes trivExt 1 "pris 100 Publisert" "pris 100").is_significant
        = false :=
  ⟨⟨by decide, by decide⟩,
    c1_noise_invariance trivExt 1 "pris 100 Publisert" "pris 100"
      (Or.inr (by decide))⟩

/-! ## Claim C3 — the significance disjunction -/

/-- C3: past the identity and noise checks, `is_significant` is true iff
the change percentage reaches the threshold, OR the extracted keyword list
is non-empty, OR the lowercased added text contains one of the hard
trigger terms — a disjunction of independent signals. -/
theorem c3_significance_disjunction (ext : PresentationExt) (θ : ℚ)
    (old_content new_content : String)
    (h1 : old_content ≠ new_content)
    (h2 : clean_text old_content ≠ clean_text new_content) :
    ((detect_changes ext θ old_content new_content).is_significant = true ↔
      (θ ≤ (detect_changes ext θ old_content new_content).change_percent ∨
       (detect_changes ext θ old_content new_content).significant_keywords_found
           ≠ [] ∨
       ∃ kw ∈ hardTriggerTerms,
         pyContains
           (lowerString (String.intercalate "\n"
             (detect_changes ext θ old_content new_content).added_lines))
           kw = true)) := by
  simp only [detect_changes, if_neg h1, if_neg h2]
  simp [List.any_eq_true, List.isEmpty_iff, Bool.or_eq_true, or_assoc]

/-- Witness for C3 at concrete inputs: "bot" occurs in the added text, so
the analysis is significant via the keyword/hard-trigger signals even
though they are checked together with the percentage. -/
theorem c3_significance_disjunction_witness :
    (("pris" : String) ≠ "bot 100" ∧ clean_text "pris" ≠ clean_text "bot 100") ∧
    ((detect_changes trivExt 1 "pris" "bot 100").is_significant = true ↔
      (1 ≤ (detect_changes trivExt 1 "pris" "bot 100").change_percent ∨
       (detect_changes trivExt 1 "pris" "bot 100").significant_keywords_found
           ≠ [] ∨
       ∃ kw ∈ hardTriggerTerms,
         pyContains
           (lowerString (String.intercalate "\n"
             (detect_changes trivExt 1 "pris" "bot 100").added_lines))
           kw = true)) :=
  ⟨⟨by decide, by decide⟩,
    c3_significance_disjunction trivExt 1 "pris" "bot 100" (by decide)
      (by decide)⟩

/-! ## Claim C5 — empty old content

The claim fails as stated: for `old = ""` and the non-empty new content
`" "`, both texts clean to `""`, so the noise branch reports
`change_percent = 0` and `is_significant = false` instead of a significant
100% change.  When the new content survives cleaning (and the threshold
does not exceed 100), the claimed behaviour holds. -/

/-- C5 counterexample: `old = ""`, `new = " "` — non-empty new content, yet
`detect_changes` reports 0% and not significant. -/
theorem c5_empty_old_counterexample :
    ("" : String) ≠ " " ∧
    (detect_changes trivExt 1 "" " ").change_percent = 0 ∧
    (detect_changes trivExt 1 "" " ").is_significant = false := by
  refine ⟨by decide, by decide, by decide⟩

/-- Amended C5: for empty old content and new content that does not clean
to the empty string, `detect_changes` reports a 100% change, and it is
significant whenever the configured threshold is at most 100. -/
theorem c5_empty_old_amended (ext : PresentationExt) (θ : ℚ)
    (new_content : String) (h : clean_text new_content ≠ "")
    (hθ : θ ≤ 100) :
    (detect_changes ext θ "" new_content).change_percent = 100 ∧
    (detect_changes ext θ "" new_content).is_significant = true := by
  have hne : ("" : String) ≠ new_content := by
    intro e
    exact h (by rw [← e]; rfl)
  have hcl : clean_text "" ≠ clean_text new_content := by
    rw [clean_text_empty]
    exact fun e => h e.symm
  have hlines : pySplitlines (clean_text new_content) ≠ [] :=
    pySplitlines_ne_nil h
  have hcp : calculate_change_percent (pySplitlines (clean_text ""))
      (pySplitlines (clean_text new_content)) = 100 := by
    rw [clean_text_empty]
    show calculate_change_percent [] _ = 100
    unfold calculate_change_percent
    simp [List.isEmpty_iff, hlines]
  constructor
  · simp only [detect_changes, if_neg hne, if_neg hcl]
    exact hcp
  · simp only [detect_changes, if_neg hne, if_neg hcl]
    simp [hcp, hθ]

/-- Witness for the amended C5 at concrete inputs. -/
theorem c5_empty_old_amended_witness :
    (clean_text "x" ≠ "" ∧ (1 : ℚ) ≤ 100) ∧
    (detect_changes trivExt 1 "" "x").change_percent = 100 ∧
    (detect_changes trivExt 1 "" "x").is_significant = true :=
  ⟨⟨by decide, by norm_num⟩,
    c5_empty_old_amended trivExt 1 "x" (by decide) (by norm_num)⟩

/-! ## Claim C4 — determinism and idempotence of normalization

The claim fails: a first pass can create new volatile-token occurrences
that a second pass rewrites further.  `normalize_content "3\ntreff"`
rewrites nothing (the counter pattern needs a literal space) but collapses
the newline to a space, producing `"3 treff"`, which a second pass turns
into `"[COUNT]"`.  Likewise `_clean_text "SistPublisert oppdatert"`
removes `Publisert`, producing `"Sist oppdatert"`, which a second pass
removes entirely.  The final whitespace-collapse-and-strip stage on its
own *is* idempotent, which is why the flaw needs a token boundary created
by an earlier removal or by the collapse. -/

/-- The shared final stage of `normalize_content` and `_clean_text`:
`re.sub(r'\s+', ' ', text)` followed by `str.strip()`. -/
def ws_normalize (l : List Char) : List Char := pyStrip (collapseWs l)

/-- Adjacent characters are never both whitespace. -/
def NoWsPair (x y : Char) : Prop := pyIsSpace x = false ∨ pyIsSpace y = false

/-- Every whitespace character of the list is a plain space. -/
def WsOk (l : List Char) : Prop := ∀ c ∈ l, pyIsSpace c = true → c = ' '

theorem dropWhile_head_false {p : Char → Bool} :
    ∀ (l : List Char) c cs, l.dropWhile p = c :: cs → p c = false := by
  intro l
  induction l with
  | nil => intro c cs h; simp [List.dropWhile] at h
  | cons d ds ih =>
    intro c cs h
    rw [List.dropWhile_cons] at h
    by_cases hd : p d
    · rw [if_pos hd] at h
      exact ih c cs h
    · rw [if_neg hd] at h
      injection h with h1 _
      rw [h1] at hd
      simpa using hd

theorem pyStrip_eq (l : List Char) :
    pyStrip l = List.rdropWhile pyIsSpace (List.dropWhile pyIsSpace l) := rfl

theorem dropWhile_pyStrip (l : List Char) :
    List.dropWhile pyIsSpace (pyStrip l) = pyStrip l := by
  rcases hB : pyStrip l with _ | ⟨c, cs⟩
  · rfl
  · have hpre : pyStrip l <+: List.dropWhile pyIsSpace l := by
      rw [pyStrip_eq]
      exact List.rdropWhile_prefix _ _
    rw [hB] at hpre
    obtain ⟨t, ht⟩ := hpre
    have hc : pyIsSpace c = false :=
      dropWhile_head_false l c (cs ++ t) ht.symm
    rw [List.dropWhile_cons, if_neg (by simp [hc])]

theorem pyStrip_idem (l : List Char) : pyStrip (pyStrip l) = pyStrip l := by
  rw [pyStrip_eq (pyStrip l), dropWhile_pyStrip, pyStrip_eq,
    List.rdropWhile_idempotent]

theorem collapse_wsOk : ∀ (l : List Char) (b : Bool), WsOk (collapseGo b l) := by
  intro l
  induction l with
  | nil => intro b c hc; simp [collapseGo] at hc
  | cons d ds ih =>
    intro b c hc hs
    by_cases hd : pyIsSpace d
    · rw [collapseGo, if_pos hd] at hc
      cases b with
      | true => exact ih true c hc hs
      | false =>
        rw [if_neg (by simp)] at hc
        rcases List.mem_cons.mp hc with h | h
        · exact h
        · exact ih true c h hs
    · rw [collapseGo, if_neg hd] at hc
      rcases List.mem_cons.mp hc with h | h
      · rw [h] at hs
        exact absurd hs (by simpa using hd)
      · exact ih false c h hs

theorem collapse_head_true :
    ∀ (l : List Char) c cs, collapseGo true l = c :: cs →
      pyIsSpace c = false := by
  intro l
  induction l with
  | nil => intro c cs h; simp [collapseGo] at h
  | cons d ds ih =>
    intro c cs h
    by_cases hd : pyIsSpace d
    · rw [collapseGo, if_pos hd] at h
      exact ih c cs h
    · rw [collapseGo, if_neg hd] at h
      injection h with h1 _
      rw [← h1]
      simpa using hd

theorem collapse_chain :
    ∀ (l : List Char) (b : Bool), List.Chain' NoWsPair (collapseGo b l) := by
  intro l
  induction l with
  | nil => intro b; simp [collapseGo]
  | cons d ds ih =>
    intro b
    by_cases hd : pyIsSpace d
    · rw [collapseGo, if_pos hd]
      cases b with
      | true => exact ih true
      | false =>
        rw [if_neg (by simp)]
        refine List.chain'_cons'.mpr ⟨?_, ih true⟩
        intro y hy
        rcases hE : collapseGo true ds with _ | ⟨c, cs⟩
        · rw [hE] at hy; simp at hy
        · rw [hE] at hy
          simp only [List.head?_cons, Option.mem_def, Option.some.injEq] at hy
          right
          rw [← hy]
          exact collapse_head_true ds c cs hE
    · rw [collapseGo, if_neg hd]
      refine List.chain'_cons'.mpr ⟨?_, ih false⟩
      intro y _
      left
      simpa using hd

theorem collapseGo_true_eq_false (l : List Char)
    (h : ∀ c cs, l = c :: cs → pyIsSpace c = false) :
    collapseGo true l = collapseGo false l := by
  cases l with
  | nil => rfl
  | cons c cs =>
    have hc : pyIsSpace c = false := h c cs rfl
    rw [collapseGo, collapseGo, if_neg (by simp [hc]), if_neg (by simp [hc])]

theorem collapse_id :
    ∀ l : List Char, WsOk l → List.Chain' NoWsPair l →
      collapseGo false l = l := by
  intro l
  induction l with
  | nil => intro _ _; rfl
  | cons c cs ih =>
    intro hok hch
    by_cases hc : pyIsSpace c
    · have hcsp : c = ' ' := hok c (List.mem_cons_self c cs) hc
      rw [collapseGo, if_pos hc]
      rw [if_neg (by simp)]
      have hhead : ∀ d ds, cs = d :: ds → pyIsSpace d = false := by
        intro d ds hcs
        have := (List.chain'_cons'.mp hch).1 d (by rw [hcs]; rfl)
        rcases this with h | h
        · rw [hc] at h; cases h
        · exact h
      rw [collapseGo_true_eq_false cs hhead,
        ih (fun x hx => hok x (List.mem_cons_of_mem c hx))
          (List.Chain'.tail hch), hcsp]
    · rw [collapseGo, if_neg hc,
        ih (fun x hx => hok x (List.mem_cons_of_mem c hx))
          (List.Chain'.tail hch)]

theorem chain_dropWhile {R : Char → Char → Prop} {p : Char → Bool} :
    ∀ l : List Char, List.Chain' R l → List.Chain' R (l.dropWhile p) := by
  intro l
  induction l with
  | nil => intro h; exact h
  | cons c cs ih =>
    intro h
    rw [List.dropWhile_cons]
    by_cases hc : p c
    · rw [if_pos hc]
      exact ih (List.Chain'.tail h)
    · rwa [if_neg hc]

theorem chain_symm_reverse {R : Char → Char → Prop}
    (hs : ∀ x y, R x y → R y x) {l : List Char} (h : List.Chain' R l) :
    List.Chain' R l.reverse :=
  List.chain'_reverse.mpr (h.imp fun a b hab => hs a b hab)

theorem chain_pyStrip {l : List Char} (h : List.Chain' NoWsPair l) :
    List.Chain' NoWsPair (pyStrip l) := by
  have hs : ∀ x y, NoWsPair x y → NoWsPair y x := fun x y hxy => hxy.symm
  have h1 : List.Chain' NoWsPair (List.dropWhile pyIsSpace l) :=
    chain_dropWhile l h
  have h2 := chain_symm_reverse hs h1
  have h3 := chain_dropWhile (p := pyIsSpace) _ h2
  exact chain_symm_reverse hs h3

theorem wsOk_pyStrip {l : List Char} (h : WsOk l) : WsOk (pyStrip l) := by
  intro c hc hs
  refine h c ?_ hs
  have h1 : c ∈ List.dropWhile pyIsSpace
      ((List.dropWhile pyIsSpace l).reverse) := by
    have := List.mem_reverse.mp (by exact hc)
    exact this
  have h2 : c ∈ (List.dropWhile pyIsSpace l).reverse :=
    (List.dropWhile_sublist _).subset h1
  have h3 : c ∈ List.dropWhile pyIsSpace l := List.mem_reverse.mp h2
  exact (List.dropWhile_sublist _).subset h3

/-- The whitespace-collapse-and-strip stage is idempotent. -/
theorem ws_normalize_idem (l : List Char) :
    ws_normalize (ws_normalize l) = ws_normalize l := by
  show pyStrip (collapseWs (pyStrip (collapseWs l))) = pyStrip (collapseWs l)
  have hW : WsOk (pyStrip (collapseWs l)) :=
    wsOk_pyStrip (collapse_wsOk l false)
  have hC : List.Chain' NoWsPair (pyStrip (collapseWs l)) :=
    chain_pyStrip (collapse_chain l false)
  rw [show collapseWs (pyStrip (collapseWs l)) = pyStrip (collapseWs l) from
    collapse_id _ hW hC, pyStrip_idem]

/-- C4 counterexample: neither `normalize_content` nor `_clean_text` is
idempotent.  `normalize_content "3\ntreff"` yields `"3 treff"` whereas a
second application yields `"[COUNT]"`; `_clean_text "SistPublisert
oppdatert"` yields `"Sist oppdatert"` whereas a second application yields
`""`. -/
theorem c4_idempotence_counterexample :
    normalize_content (normalize_content "3\ntreff") ≠
      normalize_content "3\ntreff" ∧
    clean_text (clean_text "SistPublisert oppdatert") ≠
      clean_text "SistPublisert oppdatert" := by
  constructor
  · show normalize_content "3 treff" ≠ "3 treff"
    decide
  · show clean_text "Sist oppdatert" ≠ "Sist oppdatert"
    decide

/-- Amended C4: normalization is deterministic (it is a pure function of
its input), and its final whitespace-collapse-and-strip stage is
idempotent; but the full `normalize_content` and `_clean_text` are *not*
idempotent, because a first pass can create new volatile-token matches. -/
theorem c4_normalization_amended :
    (∀ l : List Char, ws_normalize (ws_normalize l) = ws_normalize l) ∧
    (¬ ∀ s : String,
      normalize_content (normalize_content s) = normalize_content s) ∧
    (¬ ∀ s : String, clean_text (clean_text s) = clean_text s) := by
  refine ⟨ws_normalize_idem, fun h => ?_, fun h => ?_⟩
  · have := h "3\ntreff"
    rw [show normalize_content "3\ntreff" = "3 treff" from by decide] at this
    exact absurd this (by decide)
  · have := h "SistPublisert oppdatert"
    rw [show clean_text "SistPublisert oppdatert" = "Sist oppdatert" from by
      decide] at this
    exact absurd this (by decide)

/-- Witness for the amended C4 at a concrete input: one application of the
whitespace stage reaches its fixed point. -/
theorem c4_normalization_amended_witness :
    ws_normalize (ws_normalize (" a \n b ".data)) =
      ws_normalize (" a \n b ".data) :=
  c4_normalization_amended.1 (" a \n b ".data)

/-! ## Claim C2 — the change percentage

The formula, the range, and the empty-old case hold.  "0 only when the two
texts are equal" fails: for two 20001-line lists agreeing on the first
20000 (pairwise distinct) lines and differing in the last, the similarity
is `40000/40002`, so `(1 - ratio) * 100 = 100/20001 ≈ 0.005` rounds to
`0.0` although the lists differ. -/

theorem lcs_nil_left (b : List String) : lcs [] b = 0 := by
  simp [lcs]

theorem lcs_nil_right (a : List String) : lcs a [] = 0 := by
  cases a <;> simp [lcs]

theorem lcs_le_left : ∀ a b : List String, lcs a b ≤ a.length := by
  intro a
  induction a with
  | nil => intro b; simp [lcs]
  | cons x xs ihx =>
    intro b
    induction b with
    | nil => simp [lcs]
    | cons y ys ihy =>
      by_cases h : x = y
      · simp only [lcs, if_pos h]
        have := ihx ys
        simp only [List.length_cons]
        omega
      · simp only [lcs, if_neg h]
        have h1 := ihy
        have h2 := ihx (y :: ys)
        simp only [List.length_cons] at h1 ⊢
        omega

theorem lcs_le_right : ∀ a b : List String, lcs a b ≤ b.length := by
  intro a
  induction a with
  | nil => intro b; simp [lcs]
  | cons x xs ihx =>
    intro b
    induction b with
    | nil => simp [lcs]
    | cons y ys ihy =>
      by_cases h : x = y
      · simp only [lcs, if_pos h]
        have := ihx ys
        simp only [List.length_cons]
        omega
      · simp only [lcs, if_neg h]
        have h1 := ihy
        have h2 := ihx (y :: ys)
        simp only [List.length_cons] at h2 ⊢
        omega

theorem lcs_self : ∀ a : List String, lcs a a = a.length := by
  intro a
  induction a with
  | nil => simp [lcs]
  | cons x xs ih => simp [lcs, ih]

theorem lcs_append_ne (y z : String) (h : y ≠ z) :
    ∀ l : List String, lcs (l ++ [y]) (l ++ [z]) = l.length := by
  intro l
  induction l with
  | nil => simp [lcs, h]
  | cons x xs ih => simp [lcs, ih]

theorem similarity_ratio_nonneg (a b : List String) :
    0 ≤ similarity_ratio a b := by
  unfold similarity_ratio
  split
  · norm_num
  · positivity

theorem similarity_ratio_le_one (a b : List String) :
    similarity_ratio a b ≤ 1 := by
  unfold similarity_ratio
  split
  · norm_num
  · rename_i hne
    have hpos : (0 : ℚ) < (a.length : ℚ) + (b.length : ℚ) := by
      have h0 : 0 < a.length + b.length := Nat.pos_of_ne_zero hne
      exact_mod_cast h0
    rw [div_le_one hpos]
    have h1 : (lcs a b : ℚ) ≤ a.length := by exact_mod_cast lcs_le_left a b
    have h2 : (lcs a b : ℚ) ≤ b.length := by exact_mod_cast lcs_le_right a b
    linarith

theorem ratFloor_le (q : ℚ) : (Rat.floor q : ℚ) ≤ q :=
  Rat.le_floor.mp (le_refl _)

theorem lt_ratFloor_add_one (q : ℚ) : q < (Rat.floor q : ℚ) + 1 := by
  by_contra h
  push_neg at h
  have h2 : Rat.floor q + 1 ≤ Rat.floor q :=
    Rat.le_floor.mpr (by exact_mod_cast h)
  omega

theorem roundHalfEven_le (q : ℚ) : (roundHalfEven q : ℚ) ≤ q + 1 / 2 := by
  have hf := ratFloor_le q
  unfold roundHalfEven
  split_ifs <;> push_cast <;> linarith

theorem roundHalfEven_ge (q : ℚ) : q - 1 / 2 ≤ (roundHalfEven q : ℚ) := by
  have hf := lt_ratFloor_add_one q
  unfold roundHalfEven
  split_ifs <;> push_cast <;> linarith

theorem ratFloor_eq_intFloor (q : ℚ) : (Rat.floor q : ℤ) = ⌊q⌋ := by
  rw [Rat.floor_def', Rat.floor_def]

theorem roundHalfEven_intCast (n : ℤ) : roundHalfEven (n : ℚ) = n := by
  have hf : Rat.floor ((n : ℚ)) = n := by
    rw [ratFloor_eq_intFloor]
    exact Int.floor_intCast n
  unfold roundHalfEven
  rw [hf, if_pos (by norm_num)]

theorem roundHalfEven_eq_zero {q : ℚ} (h0 : 0 ≤ q) (h1 : q < 1 / 2) :
    roundHalfEven q = 0 := by
  have hf : Rat.floor q = 0 := by
    rw [ratFloor_eq_intFloor]
    exact Int.floor_eq_zero_iff.mpr ⟨h0, by linarith⟩
  unfold roundHalfEven
  rw [hf, if_pos (by push_cast; linarith)]

theorem pythonRound2_intCast (n : ℤ) : pythonRound2 (n : ℚ) = n := by
  unfold pythonRound2
  rw [show ((n : ℚ) * 100) = ((n * 100 : ℤ) : ℚ) from by push_cast; ring,
    roundHalfEven_intCast]
  field_simp

theorem pythonRound2_zero : pythonRound2 0 = 0 := by
  simpa using pythonRound2_intCast 0

theorem pythonRound2_100 : pythonRound2 100 = 100 := by
  simpa using pythonRound2_intCast 100

theorem pythonRound2_nonneg {q : ℚ} (h : 0 ≤ q) : 0 ≤ pythonRound2 q := by
  unfold pythonRound2
  have h1 := roundHalfEven_ge (q * 100)
  have h2 : (-1 : ℚ) < roundHalfEven (q * 100) := by linarith
  have h3 : (-1 : ℤ) < roundHalfEven (q * 100) := by exact_mod_cast h2
  have h4 : (0 : ℤ) ≤ roundHalfEven (q * 100) := by omega
  have : (0 : ℚ) ≤ (roundHalfEven (q * 100) : ℚ) := by exact_mod_cast h4
  linarith [this]

theorem pythonRound2_le_100 {q : ℚ} (h : q ≤ 100) : pythonRound2 q ≤ 100 := by
  unfold pythonRound2
  have h1 := roundHalfEven_le (q * 100)
  have h2 : (roundHalfEven (q * 100) : ℚ) < 10001 := by linarith
  have h3 : roundHalfEven (q * 100) < (10001 : ℤ) := by exact_mod_cast h2
  have h4 : roundHalfEven (q * 100) ≤ (10000 : ℤ) := by omega
  have : (roundHalfEven (q * 100) : ℚ) ≤ 10000 := by exact_mod_cast h4
  linarith

/-- Amended C2: `_calculate_change_percent` equals
`round((1 - similarityRatio) * 100, 2)`, lies in `[0, 100]`, is `0`
whenever the two line lists are equal (though not *only* then), and is
`100` whenever the old lines are empty and the new ones are not. -/
theorem c2_change_percent_amended (old_lines new_lines : List String) :
    calculate_change_percent old_lines new_lines =
      pythonRound2 ((1 - similarity_ratio old_lines new_lines) * 100) ∧
    0 ≤ calculate_change_percent old_lines new_lines ∧
    calculate_change_percent old_lines new_lines ≤ 100 ∧
    (old_lines = new_lines → calculate_change_percent old_lines new_lines = 0) ∧
    (old_lines = [] → new_lines ≠ [] →
      calculate_change_percent old_lines new_lines = 100) := by
  have hr0 := similarity_ratio_nonneg old_lines new_lines
  have hr1 := similarity_ratio_le_one old_lines new_lines
  have hq0 : 0 ≤ (1 - similarity_ratio old_lines new_lines) * 100 := by
    linarith
  have hq1 : (1 - similarity_ratio old_lines new_lines) * 100 ≤ 100 := by
    linarith
  have hformula : calculate_change_percent old_lines new_lines =
      pythonRound2 ((1 - similarity_ratio old_lines new_lines) * 100) := by
    unfold calculate_change_percent
    rcases old_lines with _ | ⟨x, xs⟩
    · rcases new_lines with _ | ⟨y, ys⟩
      · have : similarity_ratio ([] : List String) [] = 1 := by
          unfold similarity_ratio; norm_num
        rw [this]
        norm_num [pythonRound2_zero]
      · have : similarity_ratio ([] : List String) (y :: ys) = 0 := by
          unfold similarity_ratio
          rw [lcs_nil_left]
          simp
        rw [this]
        norm_num [pythonRound2_100]
    · simp [List.isEmpty]
  refine ⟨hformula, ?_, ?_, ?_, ?_⟩
  · rw [hformula]; exact pythonRound2_nonneg hq0
  · rw [hformula]; exact pythonRound2_le_100 hq1
  · intro he
    subst he
    rw [hformula]
    rcases old_lines with _ | ⟨x, xs⟩
    · have : similarity_ratio ([] : List String) [] = 1 := by
        unfold similarity_ratio; norm_num
      rw [this]; norm_num [pythonRound2_zero]
    · have : similarity_ratio (x :: xs) (x :: xs) = 1 := by
        unfold similarity_ratio
        rw [lcs_self]
        rw [if_neg (by simp)]
        have hpos : (0 : ℚ) <
            ((x :: xs).length : ℚ) + ((x :: xs).length : ℚ) := by
          have h0 : 0 < (x :: xs).length + (x :: xs).length := by simp
          exact_mod_cast h0
        rw [div_eq_one_iff_eq (ne_of_gt hpos)]
        ring
      rw [this]; norm_num [pythonRound2_zero]
  · intro h1 h2
    subst h1
    unfold calculate_change_percent
    simp [List.isEmpty_iff, h2]

/-- The first 20000 lines shared by the C2 counterexample lists. -/
def cexCommonLines : List String := (List.range 20000).map toString

/-- Old lines of the C2 counterexample. -/
def cexOldLines : List String := cexCommonLines ++ ["x"]

/-- New lines of the C2 counterexample. -/
def cexNewLines : List String := cexCommonLines ++ ["y"]

/-- C2 counterexample: two different 20001-line lists whose change
percentage is exactly `0`, refuting "0 only when the two texts are
equal". -/
theorem c2_change_percent_counterexample :
    calculate_change_percent cexOldLines cexNewLines = 0 ∧
    cexOldLines ≠ cexNewLines := by
  have hlen : cexCommonLines.length = 20000 := by
    simp [cexCommonLines]
  have hlcs : lcs cexOldLines cexNewLines = 20000 := by
    rw [cexOldLines, cexNewLines,
      lcs_append_ne "x" "y" (by decide) cexCommonLines, hlen]
  have hlena : cexOldLines.length = 20001 := by
    simp [cexOldLines, cexCommonLines]
  have hlenb : cexNewLines.length = 20001 := by
    simp [cexNewLines, cexCommonLines]
  have hratio : similarity_ratio cexOldLines cexNewLines = 20000 / 20001 := by
    unfold similarity_ratio
    rw [hlcs, hlena, hlenb]
    norm_num
  constructor
  · unfold calculate_change_percent
    rw [if_neg (by simp [cexOldLines, cexCommonLines]),
      if_neg (by simp [cexOldLines, cexCommonLines])]
    rw [hratio]
    rw [show ((1 : ℚ) - 20000 / 20001) * 100 = 100 / 20001 from by norm_num]
    unfold pythonRound2
    rw [show (100 : ℚ) / 20001 * 100 = 10000 / 20001 from by norm_num,
      roundHalfEven_eq_zero (by norm_num) (by norm_num)]
    norm_num
  · intro h
    have h2 : (["x"] : List String) = ["y"] := by
      rw [cexOldLines, cexNewLines] at h
      exact List.append_cancel_left h
    simp at h2

/-- Witness for the amended C2 at concrete inputs. -/
theorem c2_change_percent_amended_witness :
    calculate_change_percent ["a"] ["a"] = 0 ∧
    calculate_change_percent [] ["b"] = 100 :=
  ⟨(c2_change_percent_amended ["a"] ["a"]).2.2.2.1 rfl,
   (c2_change_percent_amended [] ["b"]).2.2.2.2 rfl (by decide)⟩

/-! ## Claim C6 — what the content hash is computed over

True for `monitor.py::fetch_page_with_retry` (hash of
`normalize_content(content)`), false for `scraper.py::fetch_page`, whose
`content_hash` is the hash of `text_content` itself — the extracted text
with no normalization pass. -/

/-- C6 counterexample: for the extracted text `"kl 12:30"` the scraper
hashes the text itself, which differs from its normalization
(`"kl [TIME]"`); so the scraper hash is not computed over the normalized
text. -/
theorem c6_hash_counterexample :
    scraper_content_hash id "kl 12:30" ≠ id (normalize_content "kl 12:30") := by
  decide

/-- Amended C6: the monitor fetch hashes the normalized content; the
scraper fetch hashes the extracted text un-normalized, and extracted text
is in general not normalization-invariant. -/
theorem c6_hash_amended :
    (∀ (H : String → String) (text : String),
      (monitorFetchSuccess H text).2 =
        H (normalize_content (monitorFetchSuccess H text).1)) ∧
    (∀ (extractPre H : String → String) (err : Option String) (html : String),
      (scraperFinish extractPre H err html).error = none →
      (scraperFinish extractPre H err html).content_hash =
        H ((scraperFinish extractPre H err html).text)) ∧
    normalize_content "kl 12:30" ≠ "kl 12:30" := by
  refine ⟨fun H text => rfl, fun extractPre H err html h => ?_, by decide⟩
  unfold scraperFinish at h ⊢
  split_ifs at h ⊢ with hc
  · have herr : err = none := h
    rw [herr] at hc
    simp at hc
  · rfl

/-- Witness for the amended C6 at concrete inputs. -/
theorem c6_hash_amended_witness :
    (monitorFetchSuccess id "a").2 =
      id (normalize_content (monitorFetchSuccess id "a").1) ∧
    (scraperFinish id id none "x").content_hash =
      id ((scraperFinish id id none "x").text) :=
  ⟨c6_hash_amended.1 id "a", c6_hash_amended.2.1 id id none "x" (by decide)⟩

/-! ## Claim C7 — the retry bound

Both implementations make exactly `MAX_RETRIES` attempts on a persistent
retryable error and return an explicit failure outcome, but only
`monitor.py` sleeps `attempt × baseDelay` between attempts; the scraper
sleeps a constant `retry_delay`. -/

/-- C7 counterexample: an always-timing-out source makes the scraper sleep
`[5, 5]`, not the claimed `[baseDelay × 1, baseDelay × 2] = [5, 10]`. -/
theorem c7_retry_counterexample :
    (fetch_page id id (fun _ => ScraperAttempt.timeout)).sleeps = [5, 5] ∧
    (fetch_page id id (fun _ => ScraperAttempt.timeout)).sleeps ≠
      [5 * 1, 5 * 2] := by
  refine ⟨by decide, by decide⟩

/-- Amended C7: on persistent timeouts, `fetch_page_with_retry` makes
exactly `MAX_RETRIES` attempts, sleeps `attempt × RETRY_DELAY` between
consecutive attempts and returns `(None, None)`; `fetch_page` (defaults
`max_retries = 3`, `retry_delay = 5`) makes exactly 3 attempts, sleeps the
constant `retry_delay` between consecutive attempts and returns an
explicit error result. -/
theorem c7_retry_amended (H extractPre : String → String)
    (netM : Nat → MonitorAttempt) (netS : Nat → ScraperAttempt)
    (hM : ∀ n, netM n = MonitorAttempt.timeout)
    (hS : ∀ n, netS n = ScraperAttempt.timeout) :
    (fetch_page_with_retry H netM).attempts = MAX_RETRIES ∧
    (fetch_page_with_retry H netM).sleeps =
      [RETRY_DELAY * 1, RETRY_DELAY * 2] ∧
    (fetch_page_with_retry H netM).result = none ∧
    (fetch_page extractPre H netS).attempts = 3 ∧
    (fetch_page extractPre H netS).sleeps = [5, 5] ∧
    (fetch_page extractPre H netS).result.error = some "Timeout" ∧
    (fetch_page extractPre H netS).result.text = "" := by
  have e1 := hM 1
  have e2 := hM 2
  have e3 := hM 3
  have f0 := hS 0
  have f1 := hS 1
  have f2 := hS 2
  refine ⟨?_, ?_, ?_, ?_, ?_, ?_, ?_⟩ <;>
    simp [fetch_page_with_retry, fetchRetryGo, MAX_RETRIES, RETRY_DELAY,
      fetch_page, scraperGo, scraperFinish, e1, e2, e3, f0, f1, f2]

/-- Witness for the amended C7 at a concrete always-timeout oracle. -/
theorem c7_retry_amended_witness :
    (fetch_page_with_retry id (fun _ => MonitorAttempt.timeout)).attempts
        = MAX_RETRIES ∧
    (fetch_page_with_retry id (fun _ => MonitorAttempt.timeout)).sleeps =
      [RETRY_DELAY * 1, RETRY_DELAY * 2] ∧
    (fetch_page_with_retry id (fun _ => MonitorAttempt.timeout)).result
        = none ∧
    (fetch_page id id (fun _ => ScraperAttempt.timeout)).attempts = 3 ∧
    (fetch_page id id (fun _ => ScraperAttempt.timeout)).sleeps = [5, 5] ∧
    (fetch_page id id (fun _ => ScraperAttempt.timeout)).result.error
        = some "Timeout" ∧
    (fetch_page id id (fun _ => ScraperAttempt.timeout)).result.text = "" :=
  c7_retry_amended id id (fun _ => MonitorAttempt.timeout)
    (fun _ => ScraperAttempt.timeout) (fun _ => rfl) (fun _ => rfl)

/-! ## Claim C8 — consecutive-failure tracking -/

theorem runEvents_last (source_id : String) :
    ∀ (evs : List FetchEvent) (st : FailState), evs ≠ [] →
      (runEvents source_id st evs source_id = none ↔
        evs.getLast? = some FetchEvent.success) := by
  intro evs
  induction evs with
  | nil => intro st h; exact absurd rfl h
  | cons e rest ih =>
    intro st _
    cases rest with
    | nil =>
      cases e with
      | failure now err => simp [runEvents, track_failure]
      | success => simp [runEvents, clear_failure]
    | cons e2 rest2 =>
      rw [List.getLast?_cons_cons]
      cases e with
      | failure now err => exact ih _ (by simp)
      | success => exact ih _ (by simp)

/-- C8: `track_failure` increments the per-source count (stamping
`first_failure` only on the first failure), returns the alert condition
exactly when the incremented count has reached 3 (so it is re-returned on
every further failure, the count never being reset by alerting);
`clear_failure` removes the entry; and over any non-empty sequence of
per-cycle outcomes the stored state is absent exactly when the most
recent outcome was a success. -/
theorem c8_failure_tracking (st : FailState) (now err source_id : String) :
    (track_failure now err source_id st).1 source_id =
      some ⟨((st source_id).getD ⟨0, none, none⟩).count + 1,
        some (((st source_id).getD ⟨0, none, none⟩).first_failure.getD now),
        some err⟩ ∧
    ((track_failure now err source_id st).2 = true ↔
      3 ≤ ((st source_id).getD ⟨0, none, none⟩).count + 1) ∧
    clear_failure source_id st source_id = none ∧
    (∀ evs : List FetchEvent, evs ≠ [] →
      (runEvents source_id st evs source_id = none ↔
        evs.getLast? = some FetchEvent.success)) := by
  refine ⟨?_, ?_, ?_, fun evs h => runEvents_last source_id evs st h⟩
  · simp [track_failure]
  · simp [track_failure]
  · simp [clear_failure]

/-- Witness for C8 at concrete inputs: the first tracked failure stores
count 1 with the current timestamp, does not yet alert, clearing removes
the entry, and after a single failure event the state is present. -/
theorem c8_failure_tracking_witness :
    (track_failure "t" "e" "s" (fun _ => none)).1 "s" =
      some ⟨1, some "t", some "e"⟩ ∧
    ((track_failure "t" "e" "s" (fun _ => none)).2 = true ↔ 3 ≤ 1) ∧
    clear_failure "s" (fun _ => none) "s" = none ∧
    (runEvents "s" (fun _ => none) [FetchEvent.failure "t" "e"] "s" = none ↔
      [FetchEvent.failure "t" "e"].getLast? = some FetchEvent.success) :=
  ⟨(c8_failure_tracking (fun _ => none) "t" "e" "s").1,
   (c8_failure_tracking (fun _ => none) "t" "e" "s").2.1,
   (c8_failure_tracking (fun _ => none) "t" "e" "s").2.2.1,
   (c8_failure_tracking (fun _ => none) "t" "e" "s").2.2.2
     [FetchEvent.failure "t" "e"] (by simp)⟩

/-! ## Claim C9 — the per-subscriber routing predicate -/

theorem listIndex_of_mem :
    ∀ (l : List String) x, x ∈ l → ∃ i, listIndex l x = some i := by
  intro l
  induction l with
  | nil => intro x hx; simp at hx
  | cons a as ih =>
    intro x hx
    by_cases hax : a = x
    · exact ⟨0, by simp [listIndex, hax]⟩
    · have hmem : x ∈ as := by
        rcases List.mem_cons.mp hx with h | h
        · exact absurd h.symm hax
        · exact h
      obtain ⟨i, hi⟩ := ih x hmem
      exact ⟨i + 1, by simp [listIndex, hax, hi]⟩

theorem listIndex_eq_none :
    ∀ (l : List String) x, x ∉ l → listIndex l x = none := by
  intro l
  induction l with
  | nil => intro x _; rfl
  | cons a as ih =>
    intro x hx
    have hax : ¬a = x := fun h => hx (h ▸ List.mem_cons_self a as)
    have has : x ∉ as := fun h => hx (List.mem_cons_of_mem a h)
    simp [listIndex, hax, ih x has]

theorem filterGo_refines (getCat : String → String) (client : Client)
    (minIdx : Nat)
    (hmin : listIndex priority_order
      (pyOrStr client.priority_threshold "low") = some minIdx) :
    ∀ changes : List ChangeRec,
      (∀ ch ∈ changes, pyOrStr ch.priority "medium" ∈ priority_order) →
      filterGo getCat client minIdx changes =
        .ok (changes.filter (clientWants getCat client)) := by
  intro changes
  induction changes with
  | nil => intro _; simp [filterGo]
  | cons ch rest ih =>
    intro hpr
    have hch := hpr ch (List.mem_cons_self ch rest)
    obtain ⟨ci, hci⟩ := listIndex_of_mem _ _ hch
    have hih := ih fun c hc => hpr c (List.mem_cons_of_mem _ hc)
    have hwants : clientWants getCat client ch =
        ((client.categories.isEmpty ||
          client.categories.contains (getCat ch.source_id)) &&
         decide (ci ≤ minIdx) &&
         (client.keywords.isEmpty || keywordHit client ch)) := by
      unfold clientWants
      rw [hmin, hci]
    rw [filterGo]
    by_cases hcat : (!client.categories.isEmpty &&
        !client.categories.contains (getCat ch.source_id)) = true
    · rw [if_pos hcat, hih]
      have hw : clientWants getCat client ch = false := by
        rw [hwants]
        simp only [Bool.and_eq_true, Bool.not_eq_true'] at hcat
        rw [hcat.1, hcat.2]
        rfl
      rw [List.filter_cons, if_neg (by simp [hw])]
    · rw [if_neg hcat, hci]
      dsimp only
      by_cases hlt : minIdx < ci
      · rw [if_pos hlt, hih]
        have hw : clientWants getCat client ch = false := by
          rw [hwants]
          simp [Nat.not_le.mpr hlt]
        rw [List.filter_cons, if_neg (by simp [hw])]
      · rw [if_neg hlt]
        by_cases hkw : (!client.keywords.isEmpty && !keywordHit client ch)
            = true
        · rw [if_pos hkw, hih]
          have hw : clientWants getCat client ch = false := by
            rw [hwants]
            simp only [Bool.and_eq_true, Bool.not_eq_true'] at hkw
            simp [hkw.1, hkw.2]
          rw [List.filter_cons, if_neg (by simp [hw])]
        · rw [if_neg hkw, hih]
          have h1 : (client.categories.isEmpty ||
              client.categories.contains (getCat ch.source_id)) = true := by
            cases hemp : client.categories.isEmpty with
            | true => simp
            | false =>
              cases hcon : client.categories.contains (getCat ch.source_id) with
              | true => simp
              | false => exact absurd (by rw [hemp, hcon]; rfl) hcat
          have h2 : (client.keywords.isEmpty || keywordHit client ch)
              = true := by
            cases hemp : client.keywords.isEmpty with
            | true => simp
            | false =>
              cases hhit : keywordHit client ch with
              | true => simp
              | false => exact absurd (by rw [hemp, hhit]; rfl) hkw
          have hw : clientWants getCat client ch = true := by
            rw [hwants, h1, h2, decide_eq_true (Nat.le_of_not_lt hlt)]
            rfl
          rw [List.filter_cons, if_pos (by simp [hw])]
          simp [Except.map]

/-- C9: under valid priority strings, `_filter_changes_for_client` keeps
exactly the changes selected by the spec routing predicate `clientWants`:
category allow-list empty or containing the source category, AND priority
ordinally at or above the threshold (critical > high > medium > low), AND
keyword allow-list empty or hit case-insensitively in the diff text.  In
particular a threshold-`high` subscriber never receives a `medium` change
and a threshold-`low` subscriber passes every valid priority. -/
theorem c9_filter_refines (getCat : String → String) (client : Client)
    (changes : List ChangeRec)
    (hthr : pyOrStr client.priority_threshold "low" ∈ priority_order)
    (hpr : ∀ ch ∈ changes, pyOrStr ch.priority "medium" ∈ priority_order) :
    filter_changes_for_client getCat client changes =
      .ok (changes.filter (clientWants getCat client)) ∧
    (∀ ch ∈ changes,
      (clientWants getCat client ch = true ↔
        ((client.categories = [] ∨
          getCat ch.source_id ∈ client.categories) ∧
         (∃ ti ci, listIndex priority_order
              (pyOrStr client.priority_threshold "low") = some ti ∧
            listIndex priority_order (pyOrStr ch.priority "medium")
              = some ci ∧ ci ≤ ti) ∧
         (client.keywords = [] ∨ ∃ kw ∈ client.keywords,
           pyContains (lowerString (ch.diff_text.getD ""))
             (lowerString kw) = true)))) := by
  obtain ⟨minIdx, hmin⟩ := listIndex_of_mem _ _ hthr
  constructor
  · unfold filter_changes_for_client
    rw [hmin]
    exact filterGo_refines getCat client minIdx hmin changes hpr
  · intro ch hchmem
    obtain ⟨ci, hci⟩ := listIndex_of_mem _ _ (hpr ch hchmem)
    unfold clientWants
    rw [hmin, hci]
    constructor
    · intro h
      simp only [Bool.and_eq_true, Bool.or_eq_true, decide_eq_true_eq,
        List.isEmpty_iff] at h
      refine ⟨?_, ⟨minIdx, ci, rfl, rfl, h.1.2⟩, ?_⟩
      · rcases h.1.1 with h1 | h1
        · exact Or.inl h1
        · exact Or.inr (by simpa using h1)
      · rcases h.2 with h2 | h2
        · exact Or.inl (by simpa using h2)
        · exact Or.inr (by simpa [keywordHit, List.any_eq_true] using h2)
    · intro h
      obtain ⟨h1, ⟨ti, ci2, hti, hci2, hle⟩, h3⟩ := h
      have hti2 : ti = minIdx := (Option.some.inj hti).symm
      have hci3 : ci2 = ci := (Option.some.inj hci2).symm
      simp only [Bool.and_eq_true, Bool.or_eq_true, decide_eq_true_eq,
        List.isEmpty_iff]
      refine ⟨⟨?_, ?_⟩, ?_⟩
      · rcases h1 with h1 | h1
        · exact Or.inl h1
        · exact Or.inr (by simpa using h1)
      · rw [← hti2, ← hci3]; exact hle
      · rcases h3 with h3 | h3
        · exact Or.inl (by simpa using h3)
        · exact Or.inr (by simpa [keywordHit, List.any_eq_true] using h3)

/-- Witness for C9 at concrete inputs: a threshold-`high` subscriber with
no category or keyword restrictions receives the `critical` change and not
the `medium` one. -/
theorem c9_filter_refines_witness :
    filter_changes_for_client (fun _ => "licenses")
        ⟨[], some "high", []⟩
        [⟨"a", some "medium", some "d"⟩, ⟨"b", some "critical", some "d"⟩] =
      .ok ([⟨"a", some "medium", some "d"⟩,
            ⟨"b", some "critical", some "d"⟩].filter
        (clientWants (fun _ => "licenses") ⟨[], some "high", []⟩)) :=
  (c9_filter_refines (fun _ => "licenses") ⟨[], some "high", []⟩
    [⟨"a", some "medium", some "d"⟩, ⟨"b", some "critical", some "d"⟩]
    (by decide) (by decide)).1

/-! ## Claim C10 — partiality of the priority handling -/

/-- `filterGo` never reads the client threshold field (the threshold only
enters through the precomputed `minIdx`). -/
theorem filterGo_threshold_irrel (getCat : String → String)
    (cats kws : List String) (t1 t2 : Option String) (minIdx : Nat) :
    ∀ changes : List ChangeRec,
      filterGo getCat ⟨cats, t1, kws⟩ minIdx changes =
        filterGo getCat ⟨cats, t2, kws⟩ minIdx changes := by
  intro changes
  induction changes with
  | nil => rfl
  | cons ch rest ih =>
    rw [filterGo, filterGo]
    dsimp only [keywordHit]
    by_cases h1 : (!cats.isEmpty && !cats.contains (getCat ch.source_id))
        = true
    · rw [if_pos h1, if_pos h1, ih]
    · rw [if_neg h1, if_neg h1]
      cases hli : listIndex priority_order (pyOrStr ch.priority "medium") with
      | none => rfl
      | some ci =>
        dsimp only
        by_cases h2 : minIdx < ci
        · rw [if_pos h2, if_pos h2, ih]
        · rw [if_neg h2, if_neg h2]
          by_cases h3 : (!kws.isEmpty && !(kws.any fun kw =>
              pyContains (lowerString (ch.diff_text.getD ""))
                (lowerString kw))) = true
          · rw [if_pos h3, if_pos h3, ih]
          · rw [if_neg h3, if_neg h3, ih]

/-- C10: the filter treats a `None` change priority as `"medium"` and a
`None` client threshold as `"low"`; any priority string outside the fixed
ordering makes the whole call raise `ValueError` (via `list.index`),
aborting notification for every change of that client — and this branch is
reachable because `check_source` stores the AI summarizer's unvalidated
priority string directly into the change record. -/
theorem c10_priority_partiality :
    (∀ (getCat : String → String) (client : Client) (ch : ChangeRec),
      ch.priority = none →
      clientWants getCat client ch =
        clientWants getCat client
          ⟨ch.source_id, some "medium", ch.diff_text⟩) ∧
    (∀ (getCat : String → String) (cats kws : List String)
        (changes : List ChangeRec),
      filter_changes_for_client getCat ⟨cats, none, kws⟩ changes =
        filter_changes_for_client getCat ⟨cats, some "low", kws⟩ changes) ∧
    (∀ (getCat : String → String) (cats kws : List String)
        (changes : List ChangeRec) (p : String),
      p ∉ priority_order → p ≠ "" →
      filter_changes_for_client getCat ⟨cats, some p, kws⟩ changes =
        .error "ValueError") ∧
    (∀ (getCat : String → String) (client : Client) (ch : ChangeRec)
        (rest : List ChangeRec) (p : String),
      pyOrStr client.priority_threshold "low" ∈ priority_order →
      (!client.categories.isEmpty &&
        !client.categories.contains (getCat ch.source_id)) = false →
      ch.priority = some p → p ∉ priority_order → p ≠ "" →
      filter_changes_for_client getCat client (ch :: rest) =
        .error "ValueError") ∧
    (∀ source_priority p : String,
      check_source_priority source_priority
        (some (summarize_change_priority (some p))) = p) := by
  refine ⟨?_, ?_, ?_, ?_, fun _ _ => rfl⟩
  · intro getCat client ch hp
    unfold clientWants
    rw [hp]
    rfl
  · intro getCat cats kws changes
    unfold filter_changes_for_client
    rw [show (Client.mk cats none kws).priority_threshold = none from rfl,
      show (Client.mk cats (some "low") kws).priority_threshold = some "low"
        from rfl,
      show pyOrStr none "low" = "low" from rfl,
      show pyOrStr (some "low") "low" = "low" from by decide,
      show listIndex priority_order "low" = some 3 from by decide]
    exact filterGo_threshold_irrel getCat cats kws none (some "low") 3 changes
  · intro getCat cats kws changes p hp hne
    unfold filter_changes_for_client
    have : pyOrStr (some p) "low" = p := by simp [pyOrStr, hne]
    rw [show (Client.mk cats (some p) kws).priority_threshold = some p
      from rfl, this, listIndex_eq_none _ _ hp]
  · intro getCat client ch rest p hthr hcat hp hpmem hpne
    obtain ⟨minIdx, hmin⟩ := listIndex_of_mem _ _ hthr
    unfold filter_changes_for_client
    rw [hmin]
    dsimp only
    rw [filterGo]
    rw [if_neg (by rw [hcat]; simp)]
    have : pyOrStr ch.priority "medium" = p := by simp [pyOrStr, hp, hpne]
    rw [this, listIndex_eq_none _ _ hpmem]

/-- Witness for C10 at concrete inputs: a change carrying the summarizer
priority string `"KRITISK"` aborts filtering for the whole client. -/
theorem c10_priority_partiality_witness :
    check_source_priority "medium" (some (summarize_change_priority
      (some "KRITISK"))) = "KRITISK" ∧
    filter_changes_for_client (fun _ => "health") ⟨[], some "low", []⟩
      [⟨"a", some "KRITISK", some "d"⟩, ⟨"b", some "low", some "d"⟩] =
      .error "ValueError" :=
  ⟨c10_priority_partiality.2.2.2.2 "medium" "KRITISK",
   c10_priority_partiality.2.2.2.1 (fun _ => "health") ⟨[], some "low", []⟩
     ⟨"a", some "KRITISK", some "d"⟩ [⟨"b", some "low", some "d"⟩] "KRITISK"
     (by decide) (by decide) rfl (by decide) (by decide)⟩

end Aqua
